import Mathlib

/-!
Verification of the `euglenida` command-line orchestration layer.

This file gives a shallow embedding, in Lean, of the orchestration core of
the repository (`src/euglenida/utils.py`, `preprocessing.py`,
`quality_control.py`, `taxonomy.py`) and proves properties of it.

External effects are modelled explicitly:
* a child process's behaviour is an oracle value (`ProcBehavior`);
* the filesystem is a list of existing directory paths;
* `os.environ` is an association list;
* Python-level call faults (`TypeError` on arity mismatch, `AttributeError`
  on a missing module attribute) are modelled by looking the callee up in a
  table of the functions `utils.py` actually defines, with their arities.
-/

namespace Euglenida

/-- Behaviour of one child process, seen from the caller of
`subprocess.Popen`: the spawn itself can fail (nonexistent executable, which
makes `Popen` raise `FileNotFoundError`), reading the output stream can raise
a `subprocess.SubprocessError`, or the process runs to completion with some
exit code. -/
inductive ProcBehavior
| spawnFail
| streamFault
| runs (exitCode : Int)
deriving DecidableEq

/-- Result of a call to `utils.run_command_with_output`: either an exception
propagates out of it, or it returns a Python value (`some 1` for the explicit
`return 1`, `none` for falling off the end), having possibly printed the
formatted error line. -/
inductive RunnerOutcome
| raised (exc : String)
| ret (val : Option Nat) (printedError : Bool)
deriving DecidableEq

/-- Shallow embedding of `utils.run_command_with_output` (utils.py lines
31-51).  `subprocess.Popen` is called outside the `try` block, and
`FileNotFoundError` is not a subclass of `subprocess.SubprocessError`, so a
spawn failure always propagates.  A `SubprocessError` raised while streaming
the output is re-raised when `args.verbose or args.debug`, otherwise the
formatted error line is printed and the function returns 1.  On a clean
stream the function never inspects the child's exit status and falls off the
end, returning `None`. -/
def run_command_with_output (b : ProcBehavior) (verbose debug : Bool) : RunnerOutcome :=
  match b with
  | .spawnFail => .raised "FileNotFoundError"
  | .streamFault =>
      if verbose || debug then .raised "SubprocessError"
      else .ret (some 1) true
  | .runs _ => .ret none false

/-- Outcome of one of the top-level command functions (`preprocess`,
`quality_control`, `classify`, `rooted_tree`): a returned exit code or an
uncaught exception. -/
inductive CmdOutcome
| exited (code : Nat)
| raised (exc : String)
deriving DecidableEq

/-- The functions defined by `utils.py`, with their arities:
`command_to_str(command)`, `new_tmp_dir_env(new_path, logger)`,
`print_args(args, script_name)`,
`run_command_with_output(command, env, args, script_name, logger)`. -/
def utilsModule : List (String × Nat) :=
  [("command_to_str", 1), ("new_tmp_dir_env", 2), ("print_args", 2),
   ("run_command_with_output", 5)]

/-- Result of attempting a Python call `module.name(arg1, ..., argN)`. -/
inductive PyCallResult
| ok
| typeError
| attributeError
deriving DecidableEq

/-- Python call semantics against a module's attribute table: a missing
attribute raises `AttributeError`; a wrong number of positional arguments
raises `TypeError`; otherwise the call proceeds. -/
def pyCall (m : List (String × Nat)) (name : String) (nargs : Nat) : PyCallResult :=
  match m.lookup name with
  | none => .attributeError
  | some arity => if nargs = arity then .ok else .typeError

/-- Python `dict` assignment `d[k] = v` on an association list that keeps
insertion order: an existing key is updated in place, a new key is appended. -/
def dictSet (env : List (String × String)) (k v : String) : List (String × String) :=
  if env.any (fun p => p.1 = k) then
    env.map (fun p => if p.1 = k then (k, v) else p)
  else env ++ [(k, v)]

/-- The single-quote character, as a one-character string. -/
def singleQuote : String := String.singleton (Char.ofNat 39)

/-- Shallow embedding of `utils.new_tmp_dir_env` (utils.py lines 13-19).
`ambient` is `os.environ`; `resolvedPath` stands for `new_path.resolve()`.
The code copies the ambient environment and assigns
`current_env["TMPDIR"] = f"'{new_path.resolve()}'"` — note the literal
single quotes in the f-string.  The result pairs the returned mapping with
the ambient environment after the call (which the function never writes). -/
def new_tmp_dir_env (ambient : List (String × String)) (resolvedPath : String) :
    List (String × String) × List (String × String) :=
  let current_env := ambient
  let current_env := dictSet current_env "TMPDIR"
    (singleQuote ++ resolvedPath ++ singleQuote)
  (current_env, ambient)

/-- `pathlib.Path.mkdir()` with default arguments against a filesystem
modelled as the list of existing directories: raises `FileExistsError` if the
directory already exists, otherwise creates it. -/
def mkdir (fs : List String) (d : String) : Except String (List String) :=
  if d ∈ fs then .error "FileExistsError" else .ok (d :: fs)

/-- `pathlib` path joining `a / b` for a relative right operand. -/
def pjoin (a b : String) : String := a ++ "/" ++ b

/-- Python `f"{x}"` applied to an `Optional[str]`: `str(None)` is `"None"`. -/
def optStr : Option String → String
| none => "None"
| some s => s

/-! ### Command builders (`preprocessing.py` lines 12-137) -/

/-- `preprocessing.qiime_tools_import`. -/
def qiime_tools_import (qiime_path input_path output_path : String) : List String :=
  [qiime_path, "tools", "import",
   "--type", "SampleData[PairedEndSequencesWithQuality]",
   "--input-format", "PairedEndFastqManifestPhred33",
   "--input-path", input_path,
   "--output-path", output_path]

/-- `preprocessing.qiime_demux_summarize`. -/
def qiime_demux_summarize (qiime_path imported_reads_filepath
    output_visualization_path : String) : List String :=
  [qiime_path, "demux", "summarize",
   "--i-data", imported_reads_filepath,
   "--o-visualization", output_visualization_path]

/-- `preprocessing.qiime_dada2` (lines 48-89).  The integer parameters are
interpolated with `f"{...}"`, i.e. rendered in decimal; `--verbose` is
appended exactly when `verbose` is true. -/
def qiime_dada2 (qiime_path imported_reads_filepath stats_output_filename
    filtered_sequences_filename summary_table_filename : String)
    (truncate_forward_at truncate_reverse_at trim_forward_by trim_reverse_by
      truncate_threshold_quality : Nat)
    (verbose : Bool) (chimera_method : String) : List String :=
  let command :=
    [qiime_path, "dada2", "denoise-paired",
     "--i-demultiplexed-seqs", imported_reads_filepath,
     "--p-trunc-len-f", Nat.repr truncate_forward_at,
     "--p-trunc-len-r", Nat.repr truncate_reverse_at,
     "--p-trim-left-f", Nat.repr trim_forward_by,
     "--p-trim-left-r", Nat.repr trim_reverse_by,
     "--p-chimera-method", chimera_method,
     "--p-trunc-q", Nat.repr truncate_threshold_quality,
     "--o-denoising-stats", stats_output_filename,
     "--o-representative-sequences", filtered_sequences_filename,
     "--o-table", summary_table_filename]
  if verbose then command ++ ["--verbose"] else command

/-- `preprocessing.qiime_metadata_tabulate`. -/
def qiime_metadata_tabulate (qiime_path input_stats_filename
    output_stats_filename : String) : List String :=
  [qiime_path, "metadata", "tabulate",
   "--m-input-file", input_stats_filename,
   "--o-visualization", output_stats_filename]

/-- `preprocessing.qiime_feature_table_summarize`. -/
def qiime_feature_table_summarize (qiime_path input_table output_table : String) :
    List String :=
  [qiime_path, "feature-table", "summarize",
   "--i-table", input_table,
   "--o-visualization", output_table]

/-- `preprocessing.qiime_tools_export`. -/
def qiime_tools_export (qiime_path input_path output_dir : String) : List String :=
  [qiime_path, "tools", "export",
   "--input-path", input_path,
   "--output-path", output_dir]

/-! ### The preprocess command (`preprocessing.py` lines 140-309) -/

/-- A parameter tuple `(trunc_f, trunc_r, trim_f, trim_r, trunc_q)`.  The CLI
parses these with `type=int`; they are trimming lengths and a quality
threshold, modelled as naturals. -/
abbrev Tup := Nat × Nat × Nat × Nat × Nat

/-- The fields of `argparse.Namespace` that `preprocess` reads. -/
structure PPArgs where
  qiime_path : Option String
  qiime2_manifest : String
  outdir : String
  tmp_dir : String
  trunc_len_f : List Nat
  trunc_len_r : List Nat
  trim_left_f : List Nat
  trim_left_r : List Nat
  trunc_q : List Nat
  verbose : Bool
  debug : Bool

/-- `itertools.product` of five lists, rightmost factor varying fastest, as
at `preprocessing.py` lines 167-175. -/
def product5 (as bs cs ds es : List Nat) : List Tup :=
  as.flatMap fun a => bs.flatMap fun b => cs.flatMap fun c => ds.flatMap fun d =>
    es.map fun e => (a, b, c, d, e)

/-- The `trimming_parameters` list computed by `preprocess`:
`itertools.product(args.trunc_len_f, args.trunc_len_r, args.trim_left_f,
args.trim_left_r, args.trunc_q)`. -/
def trimming_parameters (a : PPArgs) : List Tup :=
  product5 a.trunc_len_f a.trunc_len_r a.trim_left_f a.trim_left_r a.trunc_q

/-- The `f"..._{trunc_f}_{trunc_r}_{trim_f}_{trim_r}_{trunc_q}"` parameter
suffix used in every per-combination artifact name. -/
def suffix5 : Tup → String
| (tf, tr, lf, lr, q) =>
  Nat.repr tf ++ "_" ++ Nat.repr tr ++ "_" ++ Nat.repr lf ++ "_" ++
    Nat.repr lr ++ "_" ++ Nat.repr q

/-- Stem of `filtering_stats_<...>.qza`. -/
def filteringStatsStem (t : Tup) : String := "filtering_stats_" ++ suffix5 t

/-- Stem of `filtered_reads_<...>.qza`. -/
def filteredReadsStem (t : Tup) : String := "filtered_reads_" ++ suffix5 t

/-- Stem of `filtering_table_<...>.qza`. -/
def filteringTableStem (t : Tup) : String := "filtering_table_" ++ suffix5 t

/-- Run one command through `run_command_with_output`, discarding its return
value as every call site does; only an uncaught exception is reported. -/
def runStep (beh : List String → ProcBehavior) (verbose debug : Bool)
    (cmd : List String) : Option String :=
  match run_command_with_output (beh cmd) verbose debug with
  | .raised e => some e
  | .ret _ _ => none

/-- Shallow embedding of the inner `filter_and_merge` closure
(`preprocessing.py` lines 205-294) for one parameter tuple: run the dada2
denoise command, the stats tabulation, the table summarization, create the
two export directories with unconditional `mkdir`, and run the two exports.
Returns the updated filesystem, the commands handed to the process runner
(in order), and the exception that escaped, if any. -/
def filter_and_merge (a : PPArgs) (qp : String) (beh : List String → ProcBehavior)
    (fs : List String) (t : Tup) :
    List String × List (List String) × Option String :=
  let readsPath := pjoin a.outdir "reads.qza"
  let statsPath := pjoin a.outdir (filteringStatsStem t ++ ".qza")
  let seqsPath := pjoin a.outdir (filteredReadsStem t ++ ".qza")
  let tablePath := pjoin a.outdir (filteringTableStem t ++ ".qza")
  let dada2Cmd := qiime_dada2 qp readsPath statsPath seqsPath tablePath
    t.1 t.2.1 t.2.2.1 t.2.2.2.1 t.2.2.2.2 a.verbose "consensus"
  match runStep beh a.verbose a.debug dada2Cmd with
  | some e => (fs, [dada2Cmd], some e)
  | none =>
    let statsCmd := qiime_metadata_tabulate qp statsPath
      (pjoin a.outdir (filteringStatsStem t ++ ".qzv"))
    let tableVizCmd := qiime_feature_table_summarize qp tablePath
      (pjoin a.outdir (filteringTableStem t ++ ".qzv"))
    match runStep beh a.verbose a.debug statsCmd with
    | some e => (fs, [dada2Cmd, statsCmd], some e)
    | none =>
      match runStep beh a.verbose a.debug tableVizCmd with
      | some e => (fs, [dada2Cmd, statsCmd, tableVizCmd], some e)
      | none =>
        let tableDir := pjoin a.outdir (filteringTableStem t)
        match mkdir fs tableDir with
        | .error e => (fs, [dada2Cmd, statsCmd, tableVizCmd], some e)
        | .ok fs1 =>
          let tableExportCmd := qiime_tools_export qp tablePath tableDir
          let seqDir := pjoin a.outdir (filteredReadsStem t)
          match mkdir fs1 seqDir with
          | .error e => (fs1, [dada2Cmd, statsCmd, tableVizCmd], some e)
          | .ok fs2 =>
            let seqExportCmd := qiime_tools_export qp seqsPath seqDir
            match runStep beh a.verbose a.debug tableExportCmd with
            | some e => (fs2, [dada2Cmd, statsCmd, tableVizCmd, tableExportCmd], some e)
            | none =>
              match runStep beh a.verbose a.debug seqExportCmd with
              | some e =>
                (fs2, [dada2Cmd, statsCmd, tableVizCmd, tableExportCmd, seqExportCmd],
                 some e)
              | none =>
                (fs2, [dada2Cmd, statsCmd, tableVizCmd, tableExportCmd, seqExportCmd],
                 none)

/-- The sweep loop (`preprocessing.py` lines 306-307): run `filter_and_merge`
for every tuple in order; an exception escaping one unit aborts the loop.
Returns the final filesystem, the commands handed to the runner, the tuples
whose unit ran to completion, and the escaped exception, if any. -/
def runUnits (a : PPArgs) (qp : String) (beh : List String → ProcBehavior) :
    List String → List Tup →
    List String × List (List String) × List Tup × Option String
| fs, [] => (fs, [], [], none)
| fs, t :: rest =>
  match filter_and_merge a qp beh fs t with
  | (fs1, cmds, none) =>
    match runUnits a qp beh fs1 rest with
    | (fs2, cmds2, done, exc) => (fs2, cmds ++ cmds2, t :: done, exc)
  | (fs1, cmds, some e) => (fs1, cmds, [], some e)

/-- Result of one invocation of the `preprocess` command. -/
structure PPResult where
  outcome : CmdOutcome
  configErrorsPrinted : List String
  launched : List (List String)
  completedUnits : List Tup
deriving DecidableEq

/-- The formatted `"{script_name}: error::"` console prefix (the ANSI
escapes are `\x1b[31m\x1b[1m` and `\x1b[0m`). -/
def errPre (script_name : String) : String :=
  "\x1b[31m\x1b[1m" ++ script_name ++ ": error:\x1b[0m: "

/-- Shallow embedding of `preprocessing.preprocess` (lines 140-309).
`manifestExists` stands for `pathlib.Path(args.qiime2_manifest).exists()`;
`beh` gives each spawned command's behaviour; `fs` is the set of directories
existing at entry.  The eager configuration checks print a formatted message
and return exit code 1 before any command is handed to the runner; then
the import and demux-summarize commands run, then the sweep loop. -/
def preprocess (a : PPArgs) (script_name : String) (manifestExists : Bool)
    (beh : List String → ProcBehavior) (fs : List String) : PPResult :=
  match a.qiime_path with
  | none =>
    { outcome := .exited 1,
      configErrorsPrinted :=
        [errPre script_name ++ "could not find qiime2 executable in $PATH"],
      launched := [], completedUnits := [] }
  | some qp =>
    if manifestExists = false then
      { outcome := .exited 1,
        configErrorsPrinted :=
          [errPre script_name ++ a.qiime2_manifest ++ ": No such file or directory!"],
        launched := [], completedUnits := [] }
    else
      -- guarded creation of the output and tmp directories (lines 157-182)
      let fs0 := if a.outdir ∈ fs then fs else a.outdir :: fs
      let fs1 := if a.tmp_dir ∈ fs0 then fs0 else a.tmp_dir :: fs0
      let readsPath := pjoin a.outdir "reads.qza"
      let importCmd := qiime_tools_import qp a.qiime2_manifest readsPath
      let demuxCmd := qiime_demux_summarize qp readsPath (pjoin a.outdir "reads.qzv")
      match runStep beh a.verbose a.debug importCmd with
      | some e =>
        { outcome := .raised e, configErrorsPrinted := [],
          launched := [importCmd], completedUnits := [] }
      | none =>
        match runStep beh a.verbose a.debug demuxCmd with
        | some e =>
          { outcome := .raised e, configErrorsPrinted := [],
            launched := [importCmd, demuxCmd], completedUnits := [] }
        | none =>
          match runUnits a qp beh fs1 (trimming_parameters a) with
          | (_, cmds, done, none) =>
            { outcome := .exited 0, configErrorsPrinted := [],
              launched := importCmd :: demuxCmd :: cmds, completedUnits := done }
          | (_, cmds, done, some e) =>
            { outcome := .raised e, configErrorsPrinted := [],
              launched := importCmd :: demuxCmd :: cmds, completedUnits := done }

/-- The artifact path set of one sweep unit: the three `.qza` artifacts named
in `filter_and_merge`, the `.qzv` companions produced for the stats and table
artifacts, and the two export directories named after the table and
sequences artifact stems. -/
def artifact_paths (outdir : String) (t : Tup) : List String :=
  [pjoin outdir (filteringStatsStem t ++ ".qza"),
   pjoin outdir (filteringStatsStem t ++ ".qzv"),
   pjoin outdir (filteredReadsStem t ++ ".qza"),
   pjoin outdir (filteringTableStem t ++ ".qza"),
   pjoin outdir (filteringTableStem t ++ ".qzv"),
   pjoin outdir (filteringTableStem t),
   pjoin outdir (filteredReadsStem t)]

/-! ### The qc command (`quality_control.py`) -/

/-- The fields of `argparse.Namespace` that `quality_control` reads.  The
executable paths come from `shutil.which` and are `None` when the executable
is not on the search path; `quality_control` never tests them. -/
structure QCArgs where
  input_files : List String
  outdir : String
  fastqc_dirname : String
  multiqc_dirname : String
  fastqc_path : Option String
  multiqc_path : Option String
  threads : Nat
  verbose : Bool
  debug : Bool

/-- Result of one invocation of the `qc` command. -/
structure QCResult where
  outcome : CmdOutcome
  configErrorsPrinted : List String
  launched : List (List String)
deriving DecidableEq

/-- Shallow embedding of `quality_control.quality_control` (lines 8-67).
`existsF` stands for `pathlib.Path(...).exists()`; `fs` is the set of
existing directories.  The input files are validated eagerly; the executable
paths are never checked.  The first call to the process runner passes four
positional arguments to `utils.run_command_with_output`, whose signature
takes five, so reaching it raises `TypeError`. -/
def quality_control (a : QCArgs) (script_name : String) (existsF : String → Bool)
    (fs : List String) : QCResult :=
  if (a.input_files.all existsF) = false then
    let non_existent_file := (a.input_files.find? (fun f => existsF f = false)).getD ""
    { outcome := .exited 1,
      configErrorsPrinted :=
        [errPre script_name ++ non_existent_file ++ ": No such file or directory!"],
      launched := [] }
  else
    -- guarded creation of outdir, the fastqc dir and the multiqc dir
    let fastqc_dir := pjoin a.outdir a.fastqc_dirname
    let multiqc_dir := pjoin a.outdir a.multiqc_dirname
    let _fs0 := if a.outdir ∈ fs then fs else a.outdir :: fs
    let fastqc_command :=
      [optStr a.fastqc_path, "--nogroup", "--threads", Nat.repr a.threads] ++
        a.input_files ++ ["--outdir", fastqc_dir]
    let multiqc_command :=
      [optStr a.multiqc_path, "--interactive", "--export", fastqc_dir,
       "--outdir", multiqc_dir]
    -- `utils.run_command_with_output(fastqc_command, args, script_name, logger)`
    match pyCall utilsModule "run_command_with_output" 4 with
    | .typeError => { outcome := .raised "TypeError", configErrorsPrinted := [], launched := [] }
    | .attributeError =>
      { outcome := .raised "AttributeError", configErrorsPrinted := [], launched := [] }
    | .ok =>
      -- unreachable: the second runner call has the same four-argument shape
      match pyCall utilsModule "run_command_with_output" 4 with
      | .typeError => { outcome := .raised "TypeError", configErrorsPrinted := [],
                        launched := [fastqc_command] }
      | .attributeError => { outcome := .raised "AttributeError", configErrorsPrinted := [],
                             launched := [fastqc_command] }
      | .ok => { outcome := .exited 0, configErrorsPrinted := [],
                 launched := [fastqc_command, multiqc_command] }

/-! ### The taxonomy commands (`taxonomy.py`) -/

/-- Shallow embedding of the control flow of `taxonomy.classify` (lines
142-231) up to its temp-directory setup.  After the eager configuration
checks pass, line 189 calls `utils.change_tmp_dir(tmp_dir, logger)`, but
`utils` defines no attribute `change_tmp_dir`, so the access raises
`AttributeError`. -/
def classify (qiime_path : Option String)
    (classifierExists readsExist tableExists : Bool) : CmdOutcome :=
  match qiime_path with
  | none => .exited 1
  | some _ =>
    if classifierExists = false then .exited 1
    else if readsExist = false then .exited 1
    else if tableExists = false then .exited 1
    else
      match pyCall utilsModule "change_tmp_dir" 2 with
      | .attributeError => .raised "AttributeError"
      | .typeError => .raised "TypeError"
      | .ok =>
        -- unreachable: the subsequent runner calls also pass four arguments
        match pyCall utilsModule "run_command_with_output" 4 with
        | .attributeError => .raised "AttributeError"
        | .typeError => .raised "TypeError"
        | .ok => .exited 0

/-- Shallow embedding of the control flow of `taxonomy.rooted_tree` (lines
234-294) up to its temp-directory setup, which likewise calls the undefined
`utils.change_tmp_dir`. -/
def rooted_tree (qiime_path : Option String) (readsExist : Bool) : CmdOutcome :=
  match qiime_path with
  | none => .exited 1
  | some _ =>
    if readsExist = false then .exited 1
    else
      match pyCall utilsModule "change_tmp_dir" 2 with
      | .attributeError => .raised "AttributeError"
      | .typeError => .raised "TypeError"
      | .ok =>
        match pyCall utilsModule "run_command_with_output" 4 with
        | .attributeError => .raised "AttributeError"
        | .typeError => .raised "TypeError"
        | .ok => .exited 0

/-! ### Spec-side enumerator and concrete instances used in the theorems -/

/-- Positional zip of four equal-length parameter lists. -/
def zip4 : List Nat → List Nat → List Nat → List Nat →
    List (Nat × Nat × Nat × Nat)
| a :: as, b :: bs, c :: cs, d :: ds => (a, b, c, d) :: zip4 as bs cs ds
| _, _, _, _ => []

/-- Modelled from the spec: the Combination Enumerator as §4.4 words it —
`F = zip(trunc_len_f, trunc_len_r, trim_left_f, trim_left_r)` paired
positionally, then crossed with the quality thresholds `Q = trunc_q`,
yielding every `(f, q)` in `F × Q`.  Stated only for comparison with the
code's `trimming_parameters`. -/
def zipCrossEnumerator (fs rs tfs trs qs : List Nat) : List Tup :=
  (zip4 fs rs tfs trs).flatMap fun f =>
    qs.map fun q => (f.1, f.2.1, f.2.2.1, f.2.2.2, q)

/-- The preprocess arguments of the C1 example sweep:
`trunc_len_f=[200,210], trunc_len_r=[200,210], trim_left_f=[10,10],
trim_left_r=[10,10], trunc_q=[15,20]`. -/
def ppC1 : PPArgs :=
  { qiime_path := some "qiime", qiime2_manifest := "manifest.tsv",
    outdir := "out", tmp_dir := "tmp",
    trunc_len_f := [200, 210], trunc_len_r := [200, 210],
    trim_left_f := [10, 10], trim_left_r := [10, 10], trunc_q := [15, 20],
    verbose := false, debug := false }

/-- A two-unit sweep: `(200,200,10,10,15)` and `(200,200,10,10,20)`. -/
def ppTwoUnit : PPArgs :=
  { qiime_path := some "qiime", qiime2_manifest := "manifest.tsv",
    outdir := "out", tmp_dir := "tmp",
    trunc_len_f := [200], trunc_len_r := [200],
    trim_left_f := [10], trim_left_r := [10], trunc_q := [15, 20],
    verbose := false, debug := false }

/-- The dada2 command of the first unit of `ppTwoUnit`'s sweep. -/
def firstUnitDada2 : List String :=
  qiime_dada2 "qiime" (pjoin "out" "reads.qza")
    (pjoin "out" (filteringStatsStem (200, 200, 10, 10, 15) ++ ".qza"))
    (pjoin "out" (filteredReadsStem (200, 200, 10, 10, 15) ++ ".qza"))
    (pjoin "out" (filteringTableStem (200, 200, 10, 10, 15) ++ ".qza"))
    200 200 10 10 15 false "consensus"

/-- A process oracle under which the first unit's tool invocation fails to
spawn (nonexistent executable) and every other command succeeds. -/
def behFirstUnitFails : List String → ProcBehavior := fun cmd =>
  if cmd = firstUnitDada2 then ProcBehavior.spawnFail else ProcBehavior.runs 0

/-- qc arguments whose input files exist but whose fastqc executable was not
found on the search path (`shutil.which` returned `None`). -/
def qcNoFastqc : QCArgs :=
  { input_files := ["reads_R1.fastq"], outdir := "out",
    fastqc_dirname := "fastqc", multiqc_dirname := "multiqc",
    fastqc_path := none, multiqc_path := some "multiqc",
    threads := 2, verbose := false, debug := false }

/-- preprocess arguments whose qiime executable was not found
(`shutil.which` returned `None`). -/
def ppNoQiime : PPArgs :=
  { qiime_path := none, qiime2_manifest := "manifest.tsv",
    outdir := "out", tmp_dir := "tmp",
    trunc_len_f := [200], trunc_len_r := [200],
    trim_left_f := [10], trim_left_r := [10], trunc_q := [15],
    verbose := false, debug := false }

/-- A filesystem in which the first unit's table export directory already
exists (a re-run into the same output root). -/
def fsRerun : List String :=
  [pjoin "out" (filteringTableStem (200, 200, 10, 10, 15))]

/-- A process oracle under which the middle unit's dada2 invocation raises a
`SubprocessError` while its output is streamed, and everything else runs. -/
def behMidStreamFault : List String → ProcBehavior := fun cmd =>
  if cmd = qiime_dada2 "qiime" (pjoin "out" "reads.qza")
      (pjoin "out" (filteringStatsStem (210, 210, 10, 10, 15) ++ ".qza"))
      (pjoin "out" (filteredReadsStem (210, 210, 10, 10, 15) ++ ".qza"))
      (pjoin "out" (filteringTableStem (210, 210, 10, 10, 15) ++ ".qza"))
      210 210 10 10 15 false "consensus"
  then ProcBehavior.streamFault else ProcBehavior.runs 0

/-- Fold used to read a digit string back as a number. -/
def decDigits (l : List Char) : Nat :=
  l.foldl (fun acc c => 10 * acc + (c.toNat - 48)) 0

/-! ### Decimal rendering facts

`f"{n}"` on a Python `int` renders the decimal numeral; in the embedding
this is `Nat.repr`.  The artifact-naming proofs need that the rendered
digits are digit characters and that the rendering is injective. -/

lemma digitChar_isDigit {m : Nat} (h : m < 10) : (Nat.digitChar m).isDigit = true := by
  interval_cases m <;> decide

lemma digitChar_val {m : Nat} (h : m < 10) : (Nat.digitChar m).toNat - 48 = m := by
  interval_cases m <;> decide

lemma toDigitsCore_eq_digits (f : Nat) :
    ∀ (n : Nat) (l : List Char), n ≠ 0 → n ≤ f →
      Nat.toDigitsCore 10 f n l =
        ((Nat.digits 10 n).map Nat.digitChar).reverse ++ l := by
  induction f with
  | zero => intro n l h0 hle; omega
  | succ f ih =>
    intro n l h0 hle
    rw [Nat.toDigitsCore]
    by_cases hd : n / 10 = 0
    · rw [if_pos hd, Nat.digits_def' (by norm_num) (Nat.pos_of_ne_zero h0), hd]
      simp
    · have hlt : n / 10 < n := Nat.div_lt_self (Nat.pos_of_ne_zero h0) (by norm_num)
      rw [if_neg hd, ih (n / 10) (Nat.digitChar (n % 10) :: l) hd (by omega),
        Nat.digits_def' (by norm_num) (Nat.pos_of_ne_zero h0)]
      simp

lemma repr_data (n : Nat) :
    (Nat.repr n).data =
      if n = 0 then ['0'] else ((Nat.digits 10 n).map Nat.digitChar).reverse := by
  by_cases h : n = 0
  · subst h; rfl
  · rw [if_neg h]
    show Nat.toDigitsCore 10 (n + 1) n [] = _
    rw [toDigitsCore_eq_digits (n + 1) n [] h (by omega)]
    simp

lemma repr_chars_isDigit {n : Nat} {c : Char} (hc : c ∈ (Nat.repr n).data) :
    c.isDigit = true := by
  rw [repr_data] at hc
  by_cases h : n = 0
  · rw [if_pos h] at hc
    simp only [List.mem_singleton] at hc
    subst hc; decide
  · rw [if_neg h] at hc
    rw [List.mem_reverse, List.mem_map] at hc
    obtain ⟨d, hd, rfl⟩ := hc
    exact digitChar_isDigit (Nat.digits_lt_base (by norm_num) hd)

lemma foldr_digits_ofDigits :
    ∀ L : List Nat, (∀ d ∈ L, d < 10) →
      L.foldr (fun d acc => 10 * acc + ((Nat.digitChar d).toNat - 48)) 0 =
        Nat.ofDigits 10 L := by
  intro L
  induction L with
  | nil => intro _; simp [Nat.ofDigits]
  | cons d L ih =>
    intro h
    rw [List.foldr_cons, ih (fun x hx => h x (List.mem_cons_of_mem _ hx)),
      digitChar_val (h d (List.mem_cons_self _ _)), Nat.ofDigits_cons]
    omega

lemma decDigits_repr (n : Nat) : decDigits (Nat.repr n).data = n := by
  rw [repr_data]
  by_cases h : n = 0
  · rw [if_pos h]; subst h; decide
  · rw [if_neg h]
    unfold decDigits
    rw [List.foldl_reverse, List.foldr_map]
    have hlt : ∀ d ∈ Nat.digits 10 n, d < 10 :=
      fun d hd => Nat.digits_lt_base (by norm_num) hd
    have := foldr_digits_ofDigits (Nat.digits 10 n) hlt
    simpa [Nat.ofDigits_digits] using this

lemma repr_injective : Function.Injective Nat.repr := by
  intro m n h
  have h2 := congrArg (fun s => decDigits s.data) h
  simpa [decDigits_repr] using h2

lemma repr_chars_ne_underscore (n : Nat) : ∀ c ∈ (Nat.repr n).data, c ≠ '_' := by
  intro c hc hcc
  subst hcc
  exact absurd (repr_chars_isDigit hc) (by decide)

lemma repr_ne_verbose (n : Nat) : Nat.repr n ≠ "--verbose" := by
  intro h
  have hm : ('-' : Char) ∈ (Nat.repr n).data := by rw [h]; decide
  exact absurd (repr_chars_isDigit hm) (by decide)

/-! ### Splitting character lists at a separator -/

lemma sep_split (sep : Char) :
    ∀ xs ys u v : List Char, (∀ c ∈ xs, c ≠ sep) → (∀ c ∈ ys, c ≠ sep) →
      xs ++ sep :: u = ys ++ sep :: v → xs = ys ∧ u = v := by
  intro xs
  induction xs with
  | nil =>
    intro ys u v _ hys h
    cases ys with
    | nil => simpa using h
    | cons y ys =>
      simp only [List.nil_append, List.cons_append] at h
      injection h with h1 _
      exact absurd h1.symm (hys y (by simp))
  | cons x xs ih =>
    intro ys u v hxs hys h
    cases ys with
    | nil =>
      simp only [List.cons_append, List.nil_append] at h
      injection h with h1 _
      exact absurd h1 (hxs x (by simp))
    | cons y ys =>
      simp only [List.cons_append] at h
      injection h with h1 h2
      obtain ⟨e1, e2⟩ := ih ys u v (fun c hc => hxs c (by simp [hc]))
        (fun c hc => hys c (by simp [hc])) h2
      exact ⟨by rw [h1, e1], e2⟩

lemma ne_of_head_diff (p : List Char) (a b : Char) (x y : List Char) (hab : a ≠ b) :
    p ++ a :: x ≠ p ++ b :: y := by
  intro h
  have h2 := List.append_cancel_left h
  injection h2 with h3 _
  exact hab h3

/-! ### Injectivity and disjointness of the artifact names -/

lemma suffix5_data (tf tr lf lr q : Nat) :
    (suffix5 (tf, tr, lf, lr, q)).data =
      (Nat.repr tf).data ++ '_' :: ((Nat.repr tr).data ++ '_' ::
        ((Nat.repr lf).data ++ '_' :: ((Nat.repr lr).data ++ '_' ::
          (Nat.repr q).data))) := by
  simp [suffix5, String.data_append, List.append_assoc]

lemma suffix5_inj : ∀ t1 t2 : Tup, suffix5 t1 = suffix5 t2 → t1 = t2 := by
  rintro ⟨a1, b1, c1, d1, e1⟩ ⟨a2, b2, c2, d2, e2⟩ h
  have hd := congrArg String.data h
  rw [suffix5_data, suffix5_data] at hd
  obtain ⟨h1, hd⟩ := sep_split '_' _ _ _ _ (repr_chars_ne_underscore a1)
    (repr_chars_ne_underscore a2) hd
  obtain ⟨h2, hd⟩ := sep_split '_' _ _ _ _ (repr_chars_ne_underscore b1)
    (repr_chars_ne_underscore b2) hd
  obtain ⟨h3, hd⟩ := sep_split '_' _ _ _ _ (repr_chars_ne_underscore c1)
    (repr_chars_ne_underscore c2) hd
  obtain ⟨h4, h5⟩ := sep_split '_' _ _ _ _ (repr_chars_ne_underscore d1)
    (repr_chars_ne_underscore d2) hd
  have q1 : a1 = a2 := repr_injective (String.ext h1)
  have q2 : b1 = b2 := repr_injective (String.ext h2)
  have q3 : c1 = c2 := repr_injective (String.ext h3)
  have q4 : d1 = d2 := repr_injective (String.ext h4)
  have q5 : e1 = e2 := repr_injective (String.ext h5)
  simp [q1, q2, q3, q4, q5]

lemma suffix5_chars {t : Tup} : ∀ c ∈ (suffix5 t).data, c.isDigit = true ∨ c = '_' := by
  obtain ⟨a, b, c0, d, e⟩ := t
  intro c hc
  rw [suffix5_data] at hc
  simp only [List.mem_append, List.mem_cons] at hc
  rcases hc with hc | hc | hc | hc | hc | hc | hc | hc | hc
  · exact Or.inl (repr_chars_isDigit hc)
  · exact Or.inr hc
  · exact Or.inl (repr_chars_isDigit hc)
  · exact Or.inr hc
  · exact Or.inl (repr_chars_isDigit hc)
  · exact Or.inr hc
  · exact Or.inl (repr_chars_isDigit hc)
  · exact Or.inr hc
  · exact Or.inl (repr_chars_isDigit hc)

lemma suffix5_no_dot {t : Tup} : ('.' : Char) ∉ (suffix5 t).data := by
  intro h
  rcases suffix5_chars _ h with h2 | h2
  · exact absurd h2 (by decide)
  · exact absurd h2 (by decide)

lemma suffix5_chars_ne_dot (t : Tup) : ∀ c ∈ (suffix5 t).data, c ≠ '.' := by
  intro c hc hcc
  subst hcc
  exact suffix5_no_dot hc

lemma clash_sr (x y : List Char) :
    "filtering_stats_".data ++ x ≠ "filtered_reads_".data ++ y :=
  ne_of_head_diff ['f', 'i', 'l', 't', 'e', 'r'] 'i' 'e'
    ("ng_stats_".data ++ x) ("d_reads_".data ++ y) (by decide)

lemma clash_st (x y : List Char) :
    "filtering_stats_".data ++ x ≠ "filtering_table_".data ++ y :=
  ne_of_head_diff "filtering_".data 's' 't'
    ("tats_".data ++ x) ("able_".data ++ y) (by decide)

lemma clash_rt (x y : List Char) :
    "filtered_reads_".data ++ x ≠ "filtering_table_".data ++ y :=
  ne_of_head_diff "filter".data 'e' 'i'
    ("d_reads_".data ++ x) ("ng_table_".data ++ y) (by decide)

lemma pjoin_inj (o x y : String) (h : pjoin o x = pjoin o y) : x = y := by
  have hd := congrArg String.data h
  simp only [pjoin, String.data_append, List.append_assoc] at hd
  exact String.ext (List.append_cancel_left (List.append_cancel_left hd))

lemma tableStem_inj {t1 t2 : Tup} (h : filteringTableStem t1 = filteringTableStem t2) :
    t1 = t2 := by
  have hd := congrArg String.data h
  simp only [filteringTableStem, String.data_append] at hd
  exact suffix5_inj _ _ (String.ext (List.append_cancel_left hd))

lemma readsStem_inj {t1 t2 : Tup} (h : filteredReadsStem t1 = filteredReadsStem t2) :
    t1 = t2 := by
  have hd := congrArg String.data h
  simp only [filteredReadsStem, String.data_append] at hd
  exact suffix5_inj _ _ (String.ext (List.append_cancel_left hd))

lemma readsStem_ne_tableStem (t1 t2 : Tup) :
    filteredReadsStem t1 ≠ filteringTableStem t2 := by
  intro h
  have hd := congrArg String.data h
  simp only [filteredReadsStem, filteringTableStem, String.data_append] at hd
  exact clash_rt _ _ hd

/-! ### Behaviour of quiet sweeps -/

/-- With verbosity and debug off, a command whose process behaviour is not a
spawn failure never makes the runner raise: a stream fault is caught and
turned into `return 1`, which every call site discards. -/
lemma runStep_quiet (beh : List String → ProcBehavior) (cmd : List String)
    (hb : beh cmd ≠ ProcBehavior.spawnFail) : runStep beh false false cmd = none := by
  unfold runStep run_command_with_output
  cases hbc : beh cmd with
  | spawnFail => exact absurd hbc hb
  | streamFault => simp
  | runs c => simp

/-- A unit whose commands never fail to spawn, run in quiet mode against a
filesystem not yet containing its export directories, completes: no
exception escapes and exactly its two export directories are created. -/
lemma filter_and_merge_ok (a : PPArgs) (qp : String)
    (beh : List String → ProcBehavior) (fs : List String) (t : Tup)
    (hv : a.verbose = false) (hd : a.debug = false)
    (hb : ∀ cmd, beh cmd ≠ ProcBehavior.spawnFail)
    (h1 : pjoin a.outdir (filteringTableStem t) ∉ fs)
    (h2 : pjoin a.outdir (filteredReadsStem t) ∉ fs) :
    ∃ cmds, filter_and_merge a qp beh fs t =
      (pjoin a.outdir (filteredReadsStem t) ::
        pjoin a.outdir (filteringTableStem t) :: fs, cmds, none) := by
  have hs : ∀ cmd, runStep beh a.verbose a.debug cmd = none := by
    intro cmd; rw [hv, hd]; exact runStep_quiet beh cmd (hb cmd)
  have h2' : pjoin a.outdir (filteredReadsStem t) ∉
      pjoin a.outdir (filteringTableStem t) :: fs := by
    intro hmem
    rcases List.mem_cons.mp hmem with heq | hmem2
    · exact readsStem_ne_tableStem t t (pjoin_inj _ _ _ heq)
    · exact h2 hmem2
  unfold filter_and_merge
  simp only [hs, mkdir]
  rw [if_neg h1]
  simp only [if_neg h2']
  exact ⟨_, rfl⟩

/-! ### Claim theorems -/

/-- Claim C2: every qc run that passes its eager input-file checks faults at
the first runner call, because `quality_control` passes four arguments to
`utils.run_command_with_output`, whose signature takes five
(`command, env, args, script_name, logger`); and the taxonomy `classify` and
`rooted_tree` commands, once their configuration checks pass, fault at
temp-directory setup because `utils.change_tmp_dir` is not defined.  Hence
these commands never launch an external tool. -/
theorem c2_commands_always_fault :
    utilsModule.lookup "run_command_with_output" = some 5 ∧
    utilsModule.lookup "change_tmp_dir" = none ∧
    (∀ (qa : QCArgs) (s : String) (existsF : String → Bool) (fs : List String),
      (qa.input_files.all existsF) = true →
      (quality_control qa s existsF fs).outcome = CmdOutcome.raised "TypeError" ∧
      (quality_control qa s existsF fs).launched = []) ∧
    (∀ qp : String, classify (some qp) true true true =
      CmdOutcome.raised "AttributeError") ∧
    (∀ qp : String, rooted_tree (some qp) true =
      CmdOutcome.raised "AttributeError") := by
  refine ⟨rfl, rfl, ?_, fun _ => rfl, fun _ => rfl⟩
  intro qa s existsF fs h
  unfold quality_control
  rw [if_neg (by simp [h])]
  exact ⟨rfl, rfl⟩

/-- Witness for C2 at concrete inputs. -/
theorem c2_commands_always_fault_witness :
    (qcNoFastqc.input_files.all fun _ => true) = true ∧
    (quality_control qcNoFastqc "euglenins" (fun _ => true) []).outcome =
      CmdOutcome.raised "TypeError" ∧
    classify (some "qiime") true true true = CmdOutcome.raised "AttributeError" ∧
    rooted_tree (some "qiime") true = CmdOutcome.raised "AttributeError" := by
  have h := c2_commands_always_fault
  exact ⟨rfl, (h.2.2.1 qcNoFastqc "euglenins" (fun _ => true) [] rfl).1,
    h.2.2.2.1 "qiime", h.2.2.2.2 "qiime"⟩

/-- Counterexample to claim C3: a command that cannot be spawned makes the
runner raise `FileNotFoundError` even with verbosity and debug disabled —
`subprocess.Popen` is called outside the `try` block and `FileNotFoundError`
is not a `subprocess.SubprocessError`, so nothing is caught, no error line
is printed, and no failure signal is returned. -/
theorem c3_counterexample :
    run_command_with_output ProcBehavior.spawnFail false false =
      RunnerOutcome.raised "FileNotFoundError" := rfl

/-- Claim C3 (amended): a spawn failure makes the runner raise
`FileNotFoundError` in every verbosity mode; only a `SubprocessError` raised
while streaming the output is caught — re-raised when verbosity or debug is
on, otherwise reported by a single printed error line and a returned failure
signal 1. -/
theorem c3_amended_spawn_always_raises :
    ∀ v d : Bool,
      run_command_with_output ProcBehavior.spawnFail v d =
        RunnerOutcome.raised "FileNotFoundError" ∧
      run_command_with_output ProcBehavior.streamFault v d =
        (if v || d then RunnerOutcome.raised "SubprocessError"
         else RunnerOutcome.ret (some 1) true) :=
  fun _ _ => ⟨rfl, rfl⟩

/-- Counterexample to claim C5: with all input files present but the fastqc
executable missing from the search path (`shutil.which` returned `None`),
the qc command performs no executable check at all: it prints no
configuration error and does not exit with code 1 — it raises `TypeError`
at the first (mis-called) runner invocation. -/
theorem c5_counterexample :
    qcNoFastqc.fastqc_path = none ∧
    (quality_control qcNoFastqc "euglenins" (fun _ => true) []).outcome =
      CmdOutcome.raised "TypeError" ∧
    (quality_control qcNoFastqc "euglenins" (fun _ => true) []).outcome ≠
      CmdOutcome.exited 1 ∧
    (quality_control qcNoFastqc "euglenins" (fun _ => true) []).configErrorsPrinted =
      [] := by
  refine ⟨rfl, rfl, ?_, rfl⟩
  decide

/-- Claim C5 (amended): the preprocess command detects a missing qiime
executable and a missing manifest eagerly — formatted console message, exit
code 1, nothing launched — and the qc command detects a missing input file
eagerly in the same way; but the qc command checks no executables: with its
input files present it always reaches the faulting runner call, printing no
configuration error, whether or not fastqc/multiqc were found. -/
theorem c5_amended_eager_checks :
    (∀ (a : PPArgs) (s : String) (mE : Bool) (beh : List String → ProcBehavior)
        (fs : List String), a.qiime_path = none →
      preprocess a s mE beh fs =
        { outcome := CmdOutcome.exited 1,
          configErrorsPrinted :=
            [errPre s ++ "could not find qiime2 executable in $PATH"],
          launched := [], completedUnits := [] }) ∧
    (∀ (a : PPArgs) (s qp : String) (beh : List String → ProcBehavior)
        (fs : List String), a.qiime_path = some qp →
      preprocess a s false beh fs =
        { outcome := CmdOutcome.exited 1,
          configErrorsPrinted :=
            [errPre s ++ a.qiime2_manifest ++ ": No such file or directory!"],
          launched := [], completedUnits := [] }) ∧
    (∀ (qa : QCArgs) (s : String) (existsF : String → Bool) (fs : List String),
      (qa.input_files.all existsF) = false →
      quality_control qa s existsF fs =
        { outcome := CmdOutcome.exited 1,
          configErrorsPrinted :=
            [errPre s ++ ((qa.input_files.find? fun f => existsF f = false).getD "")
              ++ ": No such file or directory!"],
          launched := [] }) ∧
    (∀ (qa : QCArgs) (s : String) (existsF : String → Bool) (fs : List String),
      (qa.input_files.all existsF) = true →
      (quality_control qa s existsF fs).outcome = CmdOutcome.raised "TypeError" ∧
      (quality_control qa s existsF fs).configErrorsPrinted = []) := by
  refine ⟨?_, ?_, ?_, ?_⟩
  · intro a s mE beh fs h
    unfold preprocess
    rw [h]
  · intro a s qp beh fs h
    unfold preprocess
    rw [h]
    rfl
  · intro qa s existsF fs h
    unfold quality_control
    rw [if_pos h]
  · intro qa s existsF fs h
    unfold quality_control
    rw [if_neg (by simp [h])]
    exact ⟨rfl, rfl⟩

/-- Witness for the amended C5 at concrete inputs. -/
theorem c5_amended_eager_checks_witness :
    ppNoQiime.qiime_path = none ∧
    (preprocess ppNoQiime "euglenins" true (fun _ => ProcBehavior.runs 0) []).outcome =
      CmdOutcome.exited 1 ∧
    ppC1.qiime_path = some "qiime" ∧
    (preprocess ppC1 "euglenins" false (fun _ => ProcBehavior.runs 0) []).launched = [] ∧
    (qcNoFastqc.input_files.all fun _ => false) = false ∧
    (quality_control qcNoFastqc "euglenins" (fun _ => false) []).outcome =
      CmdOutcome.exited 1 ∧
    (qcNoFastqc.input_files.all fun _ => true) = true ∧
    (quality_control qcNoFastqc "euglenins" (fun _ => true) []).outcome =
      CmdOutcome.raised "TypeError" := by
  have h := c5_amended_eager_checks
  have e1 := h.1 ppNoQiime "euglenins" true (fun _ => ProcBehavior.runs 0) [] rfl
  have e2 := h.2.1 ppC1 "euglenins" "qiime" (fun _ => ProcBehavior.runs 0) [] rfl
  have e3 := h.2.2.1 qcNoFastqc "euglenins" (fun _ => false) [] rfl
  have e4 := h.2.2.2 qcNoFastqc "euglenins" (fun _ => true) [] rfl
  exact ⟨rfl, by rw [e1], rfl, by rw [e2], rfl, by rw [e3], rfl, e4.1⟩

/-- Claim C8: when the child process spawns and its output streams without
an exception, the runner's result is independent of the child's exit code —
with verbosity off, a non-zero exit status is indistinguishable from
success (the runner returns `None` either way and flags nothing). -/
theorem c8_exit_status_not_distinguished :
    ∀ code zero : Int,
      run_command_with_output (ProcBehavior.runs code) false false =
        run_command_with_output (ProcBehavior.runs zero) false false ∧
      run_command_with_output (ProcBehavior.runs code) false false =
        RunnerOutcome.ret none false :=
  fun _ _ => ⟨rfl, rfl⟩

/-- Claim C9, evaluated at a failing input: `new_tmp_dir_env` copies the
ambient environment and leaves it unmodified, but sets `TMPDIR` to the
resolved scratch path wrapped in literal single-quote characters
(`f"'{new_path.resolve()}'"`), not to the resolved path itself. -/
theorem c9_tmpdir_value_quoted :
    ((new_tmp_dir_env [("PATH", "/usr/bin")] "/scratch").1.lookup "TMPDIR" =
      some (singleQuote ++ "/scratch" ++ singleQuote)) ∧
    ((new_tmp_dir_env [("PATH", "/usr/bin")] "/scratch").1.lookup "TMPDIR" ≠
      some "/scratch") ∧
    ((new_tmp_dir_env [("PATH", "/usr/bin")] "/scratch").1.lookup "PATH" =
      some "/usr/bin") ∧
    ((new_tmp_dir_env [("PATH", "/usr/bin")] "/scratch").2 =
      [("PATH", "/usr/bin")]) := by
  refine ⟨rfl, ?_, rfl, rfl⟩
  decide

/-- Claim C10: the per-unit export directories are created with an
unconditional `mkdir`; on a re-run into the same output root, i.e. when
either export directory already exists, the unit reaches the creation step
(given that its earlier tool invocations spawn) and faults with
`FileExistsError` instead of succeeding idempotently. -/
theorem c10_export_mkdir_faults_on_rerun :
    ∀ (a : PPArgs) (qp : String) (beh : List String → ProcBehavior)
      (fs : List String) (t : Tup),
      a.verbose = false → a.debug = false →
      (∀ cmd, beh cmd ≠ ProcBehavior.spawnFail) →
      (pjoin a.outdir (filteringTableStem t) ∈ fs ∨
        pjoin a.outdir (filteredReadsStem t) ∈ fs) →
      (filter_and_merge a qp beh fs t).2.2 = some "FileExistsError" := by
  intro a qp beh fs t hv hd hb hmem
  have hs : ∀ cmd, runStep beh a.verbose a.debug cmd = none := by
    intro cmd; rw [hv, hd]; exact runStep_quiet beh cmd (hb cmd)
  unfold filter_and_merge
  simp only [hs, mkdir]
  by_cases h1 : pjoin a.outdir (filteringTableStem t) ∈ fs
  · rw [if_pos h1]
  · rcases hmem with hmem | hmem
    · exact absurd hmem h1
    · rw [if_neg h1]
      simp only [if_pos (List.mem_cons_of_mem _ hmem)]

/-- Witness for C10 at a concrete re-run filesystem. -/
theorem c10_export_mkdir_witness :
    pjoin "out" (filteringTableStem (200, 200, 10, 10, 15)) ∈ fsRerun ∧
    (filter_and_merge ppTwoUnit "qiime" (fun _ => ProcBehavior.runs 0) fsRerun
      (200, 200, 10, 10, 15)).2.2 = some "FileExistsError" :=
  ⟨List.mem_singleton.mpr rfl,
   c10_export_mkdir_faults_on_rerun ppTwoUnit "qiime" (fun _ => ProcBehavior.runs 0)
     fsRerun (200, 200, 10, 10, 15) rfl rfl
     (fun _ h => ProcBehavior.noConfusion h)
     (Or.inl (List.mem_singleton.mpr rfl))⟩

/-- Claim C7: the dada2 denoise Command Builder, at
truncate-forward=200, truncate-reverse=180, trim-forward=10, trim-reverse=5,
truncate-quality=15, emits the consecutive token pairs
`--p-trunc-len-f 200`, `--p-trunc-len-r 180`, `--p-trim-left-f 10`,
`--p-trim-left-r 5`, `--p-trunc-q 15`; and for every input (whose path and
chimera-method strings are not themselves the token `--verbose`) the
sequence ends with `--verbose` exactly when `verbose` is true and omits
`--verbose` when it is false. -/
theorem c7_dada2_command_builder :
    ∀ (q r s fsq tb chim : String) (tf tr lf lr tq : Nat) (v : Bool),
      (∀ x ∈ [q, r, s, fsq, tb, chim], x ≠ "--verbose") →
      ((qiime_dada2 q r s fsq tb 200 180 10 5 15 v chim).get? 5 =
          some "--p-trunc-len-f" ∧
        (qiime_dada2 q r s fsq tb 200 180 10 5 15 v chim).get? 6 =
          some "200" ∧
        (qiime_dada2 q r s fsq tb 200 180 10 5 15 v chim).get? 7 =
          some "--p-trunc-len-r" ∧
        (qiime_dada2 q r s fsq tb 200 180 10 5 15 v chim).get? 8 =
          some "180" ∧
        (qiime_dada2 q r s fsq tb 200 180 10 5 15 v chim).get? 9 =
          some "--p-trim-left-f" ∧
        (qiime_dada2 q r s fsq tb 200 180 10 5 15 v chim).get? 10 =
          some "10" ∧
        (qiime_dada2 q r s fsq tb 200 180 10 5 15 v chim).get? 11 =
          some "--p-trim-left-r" ∧
        (qiime_dada2 q r s fsq tb 200 180 10 5 15 v chim).get? 12 =
          some "5" ∧
        (qiime_dada2 q r s fsq tb 200 180 10 5 15 v chim).get? 15 =
          some "--p-trunc-q" ∧
        (qiime_dada2 q r s fsq tb 200 180 10 5 15 v chim).get? 16 =
          some "15") ∧
      ((qiime_dada2 q r s fsq tb tf tr lf lr tq v chim).getLast? =
          some "--verbose" ↔ v = true) ∧
      (v = false → "--verbose" ∉ qiime_dada2 q r s fsq tb tf tr lf lr tq v chim) := by
  intro q r s fsq tb chim tf tr lf lr tq v hne
  refine ⟨?_, ?_, ?_⟩
  · cases v <;>
      exact ⟨rfl, rfl, rfl, rfl, rfl, rfl, rfl, rfl, rfl, rfl⟩
  · cases v
    · constructor
      · intro hEq
        exact absurd (Option.some.inj hEq) (hne tb (by simp))
      · intro h
        exact absurd h (by decide)
    · exact ⟨fun _ => rfl, fun _ => rfl⟩
  · intro hv hm
    subst hv
    simp only [qiime_dada2] at hm
    rw [if_neg (by decide)] at hm
    simp only [List.mem_cons, List.not_mem_nil, or_false] at hm
    rcases hm with h|h|h|h|h|h|h|h|h|h|h|h|h|h|h|h|h|h|h|h|h|h|h
    all_goals first
    | exact absurd h (by decide)
    | exact repr_ne_verbose _ h.symm
    | exact (hne _ (by simp)) h.symm

/-- Witness for C7 at concrete inputs. -/
theorem c7_dada2_command_builder_witness :
    ((qiime_dada2 "qiime" "out/reads.qza" "stats.qza" "seqs.qza" "table.qza"
        200 180 10 5 15 false "consensus").getLast? = some "--verbose" ↔
      false = true) ∧
    (false = false → "--verbose" ∉ qiime_dada2 "qiime" "out/reads.qza" "stats.qza"
      "seqs.qza" "table.qza" 200 180 10 5 15 false "consensus") :=
  (c7_dada2_command_builder "qiime" "out/reads.qza" "stats.qza" "seqs.qza"
    "table.qza" "consensus" 200 180 10 5 15 false (by decide)).2

/-- Counterexample to claim C1: `preprocess` enumerates
`itertools.product` of all five parameter lists — at the claim's input it
yields 32 combinations (the full 5-way product, with repetitions), not the 4
positional-pair-cross-quality combinations the claim describes. -/
theorem c1_counterexample_full_product :
    (trimming_parameters ppC1).length = 32 ∧
    (zipCrossEnumerator [200, 210] [200, 210] [10, 10] [10, 10] [15, 20]).length = 4 ∧
    trimming_parameters ppC1 ≠
      zipCrossEnumerator [200, 210] [200, 210] [10, 10] [10, 10] [15, 20] := by
  refine ⟨rfl, rfl, ?_⟩
  decide

/-- Claim C1 (amended): the Combination Enumerator of the preprocess command
yields exactly the full 5-way Cartesian product of the parameter lists — a
tuple is enumerated iff each component lies in its list — and at
`trunc_len_f=[200,210], trunc_len_r=[200,210], trim_left_f=[10,10],
trim_left_r=[10,10], trunc_q=[15,20]` it yields 32 combinations (counting
repetitions), not 4. -/
theorem c1_amended_full_product :
    (∀ (a : PPArgs) (x : Tup),
      x ∈ trimming_parameters a ↔
        x.1 ∈ a.trunc_len_f ∧ x.2.1 ∈ a.trunc_len_r ∧ x.2.2.1 ∈ a.trim_left_f ∧
          x.2.2.2.1 ∈ a.trim_left_r ∧ x.2.2.2.2 ∈ a.trunc_q) ∧
    (trimming_parameters ppC1).length = 32 := by
  refine ⟨?_, rfl⟩
  intro a x
  obtain ⟨xa, xb, xc, xd, xe⟩ := x
  simp only [trimming_parameters, product5, List.mem_flatMap, List.mem_map,
    Prod.mk.injEq]
  constructor
  · rintro ⟨a1, ha, b1, hb, c1, hc, d1, hdd, e1, he, h1, h2, h3, h4, h5⟩
    subst h1; subst h2; subst h3; subst h4; subst h5
    exact ⟨ha, hb, hc, hdd, he⟩
  · rintro ⟨h1, h2, h3, h4, h5⟩
    exact ⟨xa, h1, xb, h2, xc, h3, xd, h4, xe, h5, rfl, rfl, rfl, rfl, rfl⟩

lemma dot_mem_qza : ('.' : Char) ∈ ".qza".data := by decide

lemma dot_mem_qzv : ('.' : Char) ∈ ".qzv".data := by decide

/-- Claim C6: the map from a parameter tuple to its artifact path set is
deterministic — the same tuple and output root always yield identical path
strings — and injective: two distinct tuples produce disjoint path sets. -/
theorem c6_path_namer_deterministic_injective :
    (∀ (outdir : String) (t : Tup), artifact_paths outdir t = artifact_paths outdir t) ∧
    (∀ (outdir : String) (t1 t2 : Tup), t1 ≠ t2 →
      List.Disjoint (artifact_paths outdir t1) (artifact_paths outdir t2)) := by
  refine ⟨fun _ _ => rfl, ?_⟩
  intro o t1 t2 h12 p hp hq
  simp only [artifact_paths, List.mem_cons, List.not_mem_nil, or_false] at hp hq
  rcases hp with rfl | rfl | rfl | rfl | rfl | rfl | rfl
  · rcases hq with h | h | h | h | h | h | h
    · have hS := pjoin_inj _ _ _ h
      have hdq := congrArg String.data hS
      simp only [filteringStatsStem, filteredReadsStem, filteringTableStem,
        String.data_append, List.append_assoc] at hdq
      have h1 := List.append_cancel_left hdq
      exact h12 (suffix5_inj _ _ (String.ext (List.append_cancel_right h1)))
    · have hS := pjoin_inj _ _ _ h
      have hdq := congrArg String.data hS
      simp only [filteringStatsStem, filteredReadsStem, filteringTableStem,
        String.data_append, List.append_assoc] at hdq
      have h1 := List.append_cancel_left hdq
      have h2 := sep_split '.' _ _ _ _ (suffix5_chars_ne_dot t1)
        (suffix5_chars_ne_dot t2) h1
      have h3 : (['q', 'z', 'a'] : List Char) ≠ ['q', 'z', 'v'] := by decide
      exact h3 h2.2
    · have hS := pjoin_inj _ _ _ h
      have hdq := congrArg String.data hS
      simp only [filteringStatsStem, filteredReadsStem, filteringTableStem,
        String.data_append, List.append_assoc] at hdq
      exact clash_sr _ _ hdq
    · have hS := pjoin_inj _ _ _ h
      have hdq := congrArg String.data hS
      simp only [filteringStatsStem, filteredReadsStem, filteringTableStem,
        String.data_append, List.append_assoc] at hdq
      exact clash_st _ _ hdq
    · have hS := pjoin_inj _ _ _ h
      have hdq := congrArg String.data hS
      simp only [filteringStatsStem, filteredReadsStem, filteringTableStem,
        String.data_append, List.append_assoc] at hdq
      exact clash_st _ _ hdq
    · have hS := pjoin_inj _ _ _ h
      have hdq := congrArg String.data hS
      simp only [filteringStatsStem, filteredReadsStem, filteringTableStem,
        String.data_append, List.append_assoc] at hdq
      exact clash_st _ _ hdq
    · have hS := pjoin_inj _ _ _ h
      have hdq := congrArg String.data hS
      simp only [filteringStatsStem, filteredReadsStem, filteringTableStem,
        String.data_append, List.append_assoc] at hdq
      exact clash_sr _ _ hdq
  · rcases hq with h | h | h | h | h | h | h
    · have hS := pjoin_inj _ _ _ h
      have hdq := congrArg String.data hS
      simp only [filteringStatsStem, filteredReadsStem, filteringTableStem,
        String.data_append, List.append_assoc] at hdq
      have h1 := List.append_cancel_left hdq
      have h2 := sep_split '.' _ _ _ _ (suffix5_chars_ne_dot t1)
        (suffix5_chars_ne_dot t2) h1
      have h3 : (['q', 'z', 'v'] : List Char) ≠ ['q', 'z', 'a'] := by decide
      exact h3 h2.2
    · have hS := pjoin_inj _ _ _ h
      have hdq := congrArg String.data hS
      simp only [filteringStatsStem, filteredReadsStem, filteringTableStem,
        String.data_append, List.append_assoc] at hdq
      have h1 := List.append_cancel_left hdq
      exact h12 (suffix5_inj _ _ (String.ext (List.append_cancel_right h1)))
    · have hS := pjoin_inj _ _ _ h
      have hdq := congrArg String.data hS
      simp only [filteringStatsStem, filteredReadsStem, filteringTableStem,
        String.data_append, List.append_assoc] at hdq
      exact clash_sr _ _ hdq
    · have hS := pjoin_inj _ _ _ h
      have hdq := congrArg String.data hS
      simp only [filteringStatsStem, filteredReadsStem, filteringTableStem,
        String.data_append, List.append_assoc] at hdq
      exact clash_st _ _ hdq
    · have hS := pjoin_inj _ _ _ h
      have hdq := congrArg String.data hS
      simp only [filteringStatsStem, filteredReadsStem, filteringTableStem,
        String.data_append, List.append_assoc] at hdq
      exact clash_st _ _ hdq
    · have hS := pjoin_inj _ _ _ h
      have hdq := congrArg String.data hS
      simp only [filteringStatsStem, filteredReadsStem, filteringTableStem,
        String.data_append, List.append_assoc] at hdq
      exact clash_st _ _ hdq
    · have hS := pjoin_inj _ _ _ h
      have hdq := congrArg String.data hS
      simp only [filteringStatsStem, filteredReadsStem, filteringTableStem,
        String.data_append, List.append_assoc] at hdq
      exact clash_sr _ _ hdq
  · rcases hq with h | h | h | h | h | h | h
    · have hS := pjoin_inj _ _ _ h
      have hdq := congrArg String.data hS
      simp only [filteringStatsStem, filteredReadsStem, filteringTableStem,
        String.data_append, List.append_assoc] at hdq
      exact clash_sr _ _ hdq.symm
    · have hS := pjoin_inj _ _ _ h
      have hdq := congrArg String.data hS
      simp only [filteringStatsStem, filteredReadsStem, filteringTableStem,
        String.data_append, List.append_assoc] at hdq
      exact clash_sr _ _ hdq.symm
    · have hS := pjoin_inj _ _ _ h
      have hdq := congrArg String.data hS
      simp only [filteringStatsStem, filteredReadsStem, filteringTableStem,
        String.data_append, List.append_assoc] at hdq
      have h1 := List.append_cancel_left hdq
      exact h12 (suffix5_inj _ _ (String.ext (List.append_cancel_right h1)))
    · have hS := pjoin_inj _ _ _ h
      have hdq := congrArg String.data hS
      simp only [filteringStatsStem, filteredReadsStem, filteringTableStem,
        String.data_append, List.append_assoc] at hdq
      exact clash_rt _ _ hdq
    · have hS := pjoin_inj _ _ _ h
      have hdq := congrArg String.data hS
      simp only [filteringStatsStem, filteredReadsStem, filteringTableStem,
        String.data_append, List.append_assoc] at hdq
      exact clash_rt _ _ hdq
    · have hS := pjoin_inj _ _ _ h
      have hdq := congrArg String.data hS
      simp only [filteringStatsStem, filteredReadsStem, filteringTableStem,
        String.data_append, List.append_assoc] at hdq
      exact clash_rt _ _ hdq
    · have hS := pjoin_inj _ _ _ h
      have hdq := congrArg String.data hS
      simp only [filteringStatsStem, filteredReadsStem, filteringTableStem,
        String.data_append, List.append_assoc] at hdq
      have h1 := List.append_cancel_left hdq
      have hm := List.mem_append_right (suffix5 t1).data dot_mem_qza
      rw [h1] at hm
      exact suffix5_no_dot hm
  · rcases hq with h | h | h | h | h | h | h
    · have hS := pjoin_inj _ _ _ h
      have hdq := congrArg String.data hS
      simp only [filteringStatsStem, filteredReadsStem, filteringTableStem,
        String.data_append, List.append_assoc] at hdq
      exact clash_st _ _ hdq.symm
    · have hS := pjoin_inj _ _ _ h
      have hdq := congrArg String.data hS
      simp only [filteringStatsStem, filteredReadsStem, filteringTableStem,
        String.data_append, List.append_assoc] at hdq
      exact clash_st _ _ hdq.symm
    · have hS := pjoin_inj _ _ _ h
      have hdq := congrArg String.data hS
      simp only [filteringStatsStem, filteredReadsStem, filteringTableStem,
        String.data_append, List.append_assoc] at hdq
      exact clash_rt _ _ hdq.symm
    · have hS := pjoin_inj _ _ _ h
      have hdq := congrArg String.data hS
      simp only [filteringStatsStem, filteredReadsStem, filteringTableStem,
        String.data_append, List.append_assoc] at hdq
      have h1 := List.append_cancel_left hdq
      exact h12 (suffix5_inj _ _ (String.ext (List.append_cancel_right h1)))
    · have hS := pjoin_inj _ _ _ h
      have hdq := congrArg String.data hS
      simp only [filteringStatsStem, filteredReadsStem, filteringTableStem,
        String.data_append, List.append_assoc] at hdq
      have h1 := List.append_cancel_left hdq
      have h2 := sep_split '.' _ _ _ _ (suffix5_chars_ne_dot t1)
        (suffix5_chars_ne_dot t2) h1
      have h3 : (['q', 'z', 'a'] : List Char) ≠ ['q', 'z', 'v'] := by decide
      exact h3 h2.2
    · have hS := pjoin_inj _ _ _ h
      have hdq := congrArg String.data hS
      simp only [filteringStatsStem, filteredReadsStem, filteringTableStem,
        String.data_append, List.append_assoc] at hdq
      have h1 := List.append_cancel_left hdq
      have hm := List.mem_append_right (suffix5 t1).data dot_mem_qza
      rw [h1] at hm
      exact suffix5_no_dot hm
    · have hS := pjoin_inj _ _ _ h
      have hdq := congrArg String.data hS
      simp only [filteringStatsStem, filteredReadsStem, filteringTableStem,
        String.data_append, List.append_assoc] at hdq
      exact clash_rt _ _ hdq.symm
  · rcases hq with h | h | h | h | h | h | h
    · have hS := pjoin_inj _ _ _ h
      have hdq := congrArg String.data hS
      simp only [filteringStatsStem, filteredReadsStem, filteringTableStem,
        String.data_append, List.append_assoc] at hdq
      exact clash_st _ _ hdq.symm
    · have hS := pjoin_inj _ _ _ h
      have hdq := congrArg String.data hS
      simp only [filteringStatsStem, filteredReadsStem, filteringTableStem,
        String.data_append, List.append_assoc] at hdq
      exact clash_st _ _ hdq.symm
    · have hS := pjoin_inj _ _ _ h
      have hdq := congrArg String.data hS
      simp only [filteringStatsStem, filteredReadsStem, filteringTableStem,
        String.data_append, List.append_assoc] at hdq
      exact clash_rt _ _ hdq.symm
    · have hS := pjoin_inj _ _ _ h
      have hdq := congrArg String.data hS
      simp only [filteringStatsStem, filteredReadsStem, filteringTableStem,
        String.data_append, List.append_assoc] at hdq
      have h1 := List.append_cancel_left hdq
      have h2 := sep_split '.' _ _ _ _ (suffix5_chars_ne_dot t1)
        (suffix5_chars_ne_dot t2) h1
      have h3 : (['q', 'z', 'v'] : List Char) ≠ ['q', 'z', 'a'] := by decide
      exact h3 h2.2
    · have hS := pjoin_inj _ _ _ h
      have hdq := congrArg String.data hS
      simp only [filteringStatsStem, filteredReadsStem, filteringTableStem,
        String.data_append, List.append_assoc] at hdq
      have h1 := List.append_cancel_left hdq
      exact h12 (suffix5_inj _ _ (String.ext (List.append_cancel_right h1)))
    · have hS := pjoin_inj _ _ _ h
      have hdq := congrArg String.data hS
      simp only [filteringStatsStem, filteredReadsStem, filteringTableStem,
        String.data_append, List.append_assoc] at hdq
      have h1 := List.append_cancel_left hdq
      have hm := List.mem_append_right (suffix5 t1).data dot_mem_qzv
      rw [h1] at hm
      exact suffix5_no_dot hm
    · have hS := pjoin_inj _ _ _ h
      have hdq := congrArg String.data hS
      simp only [filteringStatsStem, filteredReadsStem, filteringTableStem,
        String.data_append, List.append_assoc] at hdq
      exact clash_rt _ _ hdq.symm
  · rcases hq with h | h | h | h | h | h | h
    · have hS := pjoin_inj _ _ _ h
      have hdq := congrArg String.data hS
      simp only [filteringStatsStem, filteredReadsStem, filteringTableStem,
        String.data_append, List.append_assoc] at hdq
      exact clash_st _ _ hdq.symm
    · have hS := pjoin_inj _ _ _ h
      have hdq := congrArg String.data hS
      simp only [filteringStatsStem, filteredReadsStem, filteringTableStem,
        String.data_append, List.append_assoc] at hdq
      exact clash_st _ _ hdq.symm
    · have hS := pjoin_inj _ _ _ h
      have hdq := congrArg String.data hS
      simp only [filteringStatsStem, filteredReadsStem, filteringTableStem,
        String.data_append, List.append_assoc] at hdq
      exact clash_rt _ _ hdq.symm
    · have hS := pjoin_inj _ _ _ h
      have hdq := congrArg String.data hS
      simp only [filteringStatsStem, filteredReadsStem, filteringTableStem,
        String.data_append, List.append_assoc] at hdq
      have h1 := List.append_cancel_left hdq
      have hm := List.mem_append_right (suffix5 t2).data dot_mem_qza
      rw [← h1] at hm
      exact suffix5_no_dot hm
    · have hS := pjoin_inj _ _ _ h
      have hdq := congrArg String.data hS
      simp only [filteringStatsStem, filteredReadsStem, filteringTableStem,
        String.data_append, List.append_assoc] at hdq
      have h1 := List.append_cancel_left hdq
      have hm := List.mem_append_right (suffix5 t2).data dot_mem_qzv
      rw [← h1] at hm
      exact suffix5_no_dot hm
    · have hS := pjoin_inj _ _ _ h
      have hdq := congrArg String.data hS
      simp only [filteringStatsStem, filteredReadsStem, filteringTableStem,
        String.data_append, List.append_assoc] at hdq
      have h1 := List.append_cancel_left hdq
      exact h12 (suffix5_inj _ _ (String.ext h1))
    · have hS := pjoin_inj _ _ _ h
      have hdq := congrArg String.data hS
      simp only [filteringStatsStem, filteredReadsStem, filteringTableStem,
        String.data_append, List.append_assoc] at hdq
      exact clash_rt _ _ hdq.symm
  · rcases hq with h | h | h | h | h | h | h
    · have hS := pjoin_inj _ _ _ h
      have hdq := congrArg String.data hS
      simp only [filteringStatsStem, filteredReadsStem, filteringTableStem,
        String.data_append, List.append_assoc] at hdq
      exact clash_sr _ _ hdq.symm
    · have hS := pjoin_inj _ _ _ h
      have hdq := congrArg String.data hS
      simp only [filteringStatsStem, filteredReadsStem, filteringTableStem,
        String.data_append, List.append_assoc] at hdq
      exact clash_sr _ _ hdq.symm
    · have hS := pjoin_inj _ _ _ h
      have hdq := congrArg String.data hS
      simp only [filteringStatsStem, filteredReadsStem, filteringTableStem,
        String.data_append, List.append_assoc] at hdq
      have h1 := List.append_cancel_left hdq
      have hm := List.mem_append_right (suffix5 t2).data dot_mem_qza
      rw [← h1] at hm
      exact suffix5_no_dot hm
    · have hS := pjoin_inj _ _ _ h
      have hdq := congrArg String.data hS
      simp only [filteringStatsStem, filteredReadsStem, filteringTableStem,
        String.data_append, List.append_assoc] at hdq
      exact clash_rt _ _ hdq
    · have hS := pjoin_inj _ _ _ h
      have hdq := congrArg String.data hS
      simp only [filteringStatsStem, filteredReadsStem, filteringTableStem,
        String.data_append, List.append_assoc] at hdq
      exact clash_rt _ _ hdq
    · have hS := pjoin_inj _ _ _ h
      have hdq := congrArg String.data hS
      simp only [filteringStatsStem, filteredReadsStem, filteringTableStem,
        String.data_append, List.append_assoc] at hdq
      exact clash_rt _ _ hdq
    · have hS := pjoin_inj _ _ _ h
      have hdq := congrArg String.data hS
      simp only [filteringStatsStem, filteredReadsStem, filteringTableStem,
        String.data_append, List.append_assoc] at hdq
      have h1 := List.append_cancel_left hdq
      exact h12 (suffix5_inj _ _ (String.ext h1))

/-- Witness for C6 at two concrete distinct tuples. -/
theorem c6_path_namer_witness :
    (((1, 2, 3, 4, 5) : Tup) ≠ (1, 2, 3, 4, 6)) ∧
    List.Disjoint (artifact_paths "out" (1, 2, 3, 4, 5))
      (artifact_paths "out" (1, 2, 3, 4, 6)) :=
  ⟨by decide, c6_path_namer_deterministic_injective.2 "out" (1, 2, 3, 4, 5)
    (1, 2, 3, 4, 6) (by decide)⟩

/-- Counterexample to claim C4: in a two-unit sweep where the first unit's
dada2 invocation cannot spawn (nonexistent tool) and every other command
would succeed, the escaping `FileNotFoundError` aborts the loop: no unit
completes, even though the second unit run on its own would succeed. -/
theorem c4_counterexample_spawn_fail_aborts_sweep :
    (trimming_parameters ppTwoUnit).length = 2 ∧
    (preprocess ppTwoUnit "euglenins" true behFirstUnitFails []).completedUnits = [] ∧
    (preprocess ppTwoUnit "euglenins" true behFirstUnitFails []).outcome =
      CmdOutcome.raised "FileNotFoundError" ∧
    (filter_and_merge ppTwoUnit "qiime" behFirstUnitFails []
      (200, 200, 10, 10, 20)).2.2 = none := by
  refine ⟨rfl, ?_, ?_, ?_⟩ <;> decide

/-- Claim C4 (amended): failure isolation holds exactly for failures the
runner catches — with verbosity and debug off and no command failing to
spawn, every unit of the sweep runs to completion no matter how many units'
tool invocations fail while streaming (the caught failure is reported and
discarded); whereas a spawn failure raises and aborts the remaining units
(see the counterexample). -/
theorem c4_amended_isolation_of_caught_failures :
    ∀ (a : PPArgs) (qp : String) (beh : List String → ProcBehavior)
      (fs : List String) (ts : List Tup),
      a.verbose = false → a.debug = false →
      (∀ cmd, beh cmd ≠ ProcBehavior.spawnFail) →
      ts.Nodup →
      (∀ t ∈ ts, pjoin a.outdir (filteringTableStem t) ∉ fs ∧
        pjoin a.outdir (filteredReadsStem t) ∉ fs) →
      (runUnits a qp beh fs ts).2.2.1 = ts ∧
        (runUnits a qp beh fs ts).2.2.2 = none := by
  intro a qp beh fs ts hv hdbg hb
  induction ts generalizing fs with
  | nil => intro _ _; exact ⟨rfl, rfl⟩
  | cons t rest ih =>
    intro hnd hfresh
    obtain ⟨h1, h2⟩ := hfresh t (List.mem_cons_self _ _)
    obtain ⟨cmds, hfm⟩ := filter_and_merge_ok a qp beh fs t hv hdbg hb h1 h2
    have hfresh' : ∀ u ∈ rest,
        pjoin a.outdir (filteringTableStem u) ∉
          pjoin a.outdir (filteredReadsStem t) ::
            pjoin a.outdir (filteringTableStem t) :: fs ∧
        pjoin a.outdir (filteredReadsStem u) ∉
          pjoin a.outdir (filteredReadsStem t) ::
            pjoin a.outdir (filteringTableStem t) :: fs := by
      intro u hu
      have hut : u ≠ t := by
        intro hEq
        exact (List.nodup_cons.mp hnd).1 (hEq ▸ hu)
      obtain ⟨hu1, hu2⟩ := hfresh u (List.mem_cons_of_mem _ hu)
      constructor
      · intro hmem
        rcases List.mem_cons.mp hmem with hEq | hmem
        · exact readsStem_ne_tableStem t u (pjoin_inj _ _ _ hEq.symm)
        · rcases List.mem_cons.mp hmem with hEq | hmem
          · exact hut (tableStem_inj (pjoin_inj _ _ _ hEq))
          · exact hu1 hmem
      · intro hmem
        rcases List.mem_cons.mp hmem with hEq | hmem
        · exact hut (readsStem_inj (pjoin_inj _ _ _ hEq))
        · rcases List.mem_cons.mp hmem with hEq | hmem
          · exact readsStem_ne_tableStem u t (pjoin_inj _ _ _ hEq)
          · exact hu2 hmem
    have hrec := ih _ (List.nodup_cons.mp hnd).2 hfresh'
    have key : runUnits a qp beh fs (t :: rest) =
        match runUnits a qp beh (pjoin a.outdir (filteredReadsStem t) ::
          pjoin a.outdir (filteringTableStem t) :: fs) rest with
        | (fs2, cmds2, done, exc) => (fs2, cmds ++ cmds2, t :: done, exc) := by
      conv_lhs => rw [runUnits]
      rw [hfm]
    rcases hru : runUnits a qp beh (pjoin a.outdir (filteredReadsStem t) ::
      pjoin a.outdir (filteringTableStem t) :: fs) rest with ⟨fs2, cmds2, done, exc⟩
    rw [hru] at key hrec
    obtain ⟨hdone, hexc⟩ := hrec
    rw [key]
    simp only at hdone hexc ⊢
    exact ⟨by rw [hdone], hexc⟩

/-- Witness for the amended C4: a three-unit sweep in which the middle
unit's every invocation faults while streaming still completes all three
units. -/
theorem c4_amended_isolation_witness :
    (ppC1.verbose = false) ∧ (ppC1.debug = false) ∧
    (runUnits ppC1 "qiime" behMidStreamFault []
        [(200, 200, 10, 10, 15), (210, 210, 10, 10, 15),
          (200, 200, 10, 10, 20)]).2.2.1 =
      [(200, 200, 10, 10, 15), (210, 210, 10, 10, 15), (200, 200, 10, 10, 20)] ∧
    (runUnits ppC1 "qiime" behMidStreamFault []
        [(200, 200, 10, 10, 15), (210, 210, 10, 10, 15),
          (200, 200, 10, 10, 20)]).2.2.2 = none := by
  have h := c4_amended_isolation_of_caught_failures ppC1 "qiime" behMidStreamFault []
    [(200, 200, 10, 10, 15), (210, 210, 10, 10, 15), (200, 200, 10, 10, 20)]
    rfl rfl (fun cmd => by unfold behMidStreamFault; split <;> simp)
    (by decide) (by decide)
  exact ⟨rfl, rfl, h.1, h.2⟩

end Euglenida
